import Mathlib

/-!
Verification development for the PO-Assistant repository.

The inspected source is the React frontend (`frontend/src`).  The central
algorithmic piece is the story-extraction logic of `Chat.handleSend`
(`Chat.tsx`), which scans the generated chat response with the JavaScript
regular expression

  `/Story Title: (.*?)\nDescription: (.*?)(?:\n|$)/g`

and re-parses every matched chunk with
`/Story Title: (.*?)\n/` and `/Description: (.*?)(?:\n|$)/`.

Because `.` never matches a newline and all quantifiers are lazy with a
mandatory literal continuation, the regex semantics collapse to plain
line-structured scanning, which is embedded below by explicit recursion on
the character list of the text:

* a full match at a position requires the literal `"Story Title: "`, then
  the rest of that line (the title capture), then a newline immediately
  followed by the literal `"Description: "`, then the rest of that line
  (the description capture), terminated by a newline (consumed into the
  match) or the end of the input;
* the global scan walks the text left to right, emitting the matched
  chunks, continuing after each match;
* the per-chunk re-matching scans a chunk from the left for the first
  position where the corresponding single regex matches.

Machine-level JavaScript details that the claims do not touch (UTF-16
surrogate pairs, the additional line terminators excluded by `.` such as
carriage return and the Unicode line separators) are not modelled; `.` is modelled as any character other
than `'\n'`, matching every input appearing in the spec and the claims.
-/

def storyTitleMarker : List Char := "Story Title: ".toList

def descriptionMarker : List Char := "Description: ".toList

def notNL (c : Char) : Bool := c != '\n'

def dropPat : List Char → List Char → Option (List Char)
  | [], s => some s
  | _ :: _, [] => none
  | p :: ps, c :: cs => if p = c then dropPat ps cs else none

def containsPat (pat : List Char) : List Char → Bool
  | [] => (dropPat pat []).isSome
  | c :: cs => (dropPat pat (c :: cs)).isSome || containsPat pat cs

def matchStoryAt (s : List Char) : Option (List Char × List Char) :=
  match dropPat storyTitleMarker s with
  | none => none
  | some r1 =>
    let t := r1.takeWhile notNL
    match r1.dropWhile notNL with
    | [] => none
    | c :: r2 =>
      if c = '\n' then
        match dropPat descriptionMarker r2 with
        | none => none
        | some r3 =>
          let d := r3.takeWhile notNL
          match r3.dropWhile notNL with
          | [] =>
            some (storyTitleMarker ++ (t ++ '\n' :: (descriptionMarker ++ d)), [])
          | c' :: r5 =>
            if c' = '\n' then
              some (storyTitleMarker ++ (t ++ '\n' :: (descriptionMarker ++ (d ++ ['\n']))), r5)
            else none
      else none

def globalMatchesAux : Nat → List Char → List (List Char)
  | 0, _ => []
  | _ + 1, [] => []
  | n + 1, c :: cs =>
    match matchStoryAt (c :: cs) with
    | some (chunk, rest) => chunk :: globalMatchesAux n rest
    | none => globalMatchesAux n cs

def globalMatches (s : List Char) : List (List Char) :=
  globalMatchesAux s.length s

def titleMatchAt (s : List Char) : Option (List Char) :=
  match dropPat storyTitleMarker s with
  | none => none
  | some r =>
    match r.dropWhile notNL with
    | [] => none
    | c :: _ => if c = '\n' then some (r.takeWhile notNL) else none

def titleSearch : List Char → Option (List Char)
  | [] => none
  | c :: cs =>
    match titleMatchAt (c :: cs) with
    | some t => some t
    | none => titleSearch cs

def descMatchAt (s : List Char) : Option (List Char) :=
  match dropPat descriptionMarker s with
  | none => none
  | some r => some (r.takeWhile notNL)

def descSearch : List Char → Option (List Char)
  | [] => none
  | c :: cs =>
    match descMatchAt (c :: cs) with
    | some d => some d
    | none => descSearch cs

structure StoryCandidate where
  id : String
  title : String
  description : String
  published : Bool
deriving DecidableEq, Repr

structure JsEnv where
  now : Nat → Nat
  rand : Nat → String

def mkId (env : JsEnv) (i : Nat) : String :=
  toString (env.now i) ++ env.rand i

def chunkTitle (chunk : List Char) : String :=
  match titleSearch chunk with
  | some t => t.asString
  | none => "Untitled Story"

def chunkDesc (chunk : List Char) : String :=
  match descSearch chunk with
  | some d => d.asString
  | none => "No description"

def storyFromChunk (id : String) (chunk : List Char) : StoryCandidate :=
  { id := id
    title := chunkTitle chunk
    description := chunkDesc chunk
    published := false }

def extractStories (env : JsEnv) (text : String) : List StoryCandidate :=
  (globalMatches text.data).enum.map fun p => storyFromChunk (mkId env p.1) p.2

def envEx : JsEnv :=
  { now := fun _ => 1700000000000
    rand := fun i => "0." ++ toString i }

inductive Request where
  | chat (message : String) (projectKey : String)
  | storePost (projectKey : String) (story : StoryCandidate)
  | uploadImage (projectKey : String)
  | uploadBrd (projectKey : String)
deriving DecidableEq, Repr

inductive Sender where
  | user
  | assistant
deriving DecidableEq, Repr

structure ModelMessage where
  sender : Sender
  content : String
  generatedStories : List StoryCandidate
deriving DecidableEq, Repr

structure SendOutcome where
  requests : List Request
  messages : List ModelMessage
  persisted : List StoryCandidate
deriving DecidableEq, Repr

def storeLoop (pk : String) (fails : StoryCandidate → Bool) :
    List StoryCandidate → List Request × List StoryCandidate
  | [] => ([], [])
  | st :: rest =>
    let r := storeLoop pk fails rest
    (Request.storePost pk st :: r.1, if fails st then r.2 else st :: r.2)

def blankInput (input : String) : Bool :=
  input.data.all Char.isWhitespace

def handleSend (input : String) (selectedProject : Option String) (env : JsEnv)
    (chatResult : Except Unit String) (fails : StoryCandidate → Bool) : SendOutcome :=
  match selectedProject with
  | none => { requests := [], messages := [], persisted := [] }
  | some pk =>
    if blankInput input then { requests := [], messages := [], persisted := [] }
    else
      let userMsg : ModelMessage := { sender := .user, content := input, generatedStories := [] }
      match chatResult with
      | .error _ =>
        { requests := [Request.chat input pk]
          messages := [userMsg,
            { sender := .assistant
              content := "Failed to process your message. Please try again."
              generatedStories := [] }]
          persisted := [] }
      | .ok resp =>
        let stories := extractStories env resp
        let stored := storeLoop pk fails stories
        { requests := Request.chat input pk :: stored.1
          messages := [userMsg,
            { sender := .assistant, content := resp, generatedStories := stories }]
          persisted := stored.2 }

inductive FileKind where
  | image
  | document
deriving DecidableEq, Repr

def handleFileUpload (selectedProject : Option String) (kind : FileKind)
    (fileContent : String) : List Request :=
  match selectedProject with
  | none => []
  | some pk =>
    match kind with
    | .image => [Request.uploadImage pk]
    | .document => [Request.chat ("Please analyze this document:\n" ++ fileContent) pk]

def brdOnDrop (selectedProject : Option String) (hasFile : Bool) : List Request :=
  match selectedProject with
  | none => []
  | some pk => if hasFile then [Request.uploadBrd pk] else []

structure Story where
  id : String
  title : String
  description : String
  published : Bool
  jiraKey : Option String
deriving DecidableEq, Repr

def editDisabled (story : Story) : Bool :=
  story.published

inductive MsgKind where
  | success
  | error
deriving DecidableEq, Repr

structure StoriesState where
  stories : List Story
  isPublishing : Option String
  message : Option (MsgKind × String)
deriving DecidableEq, Repr

def handlePublish (st : StoriesState) (selectedProject : Option String)
    (story : Story) (result : Except Unit String) : StoriesState :=
  match selectedProject with
  | none => { st with message := some (.error, "Please select a project first") }
  | some _ =>
    match result with
    | .ok jiraKey =>
      { stories := st.stories.map fun s =>
          if s.id = story.id then { s with published := true, jiraKey := some jiraKey } else s
        isPublishing := none
        message := some (.success, "Story successfully published to Jira as " ++ jiraKey) }
    | .error _ =>
      { stories := st.stories
        isPublishing := none
        message := some (.error, "Failed to publish story. Please try again.") }

inductive StoryStatus where
  | draft
  | published
deriving DecidableEq, Repr

structure StoredStory where
  id : String
  projectKey : String
  title : String
  description : String
  status : StoryStatus
  externalKey : Option String
  updatedAt : Nat
deriving DecidableEq, Repr

structure StoryUpdates where
  title : Option String
  description : Option String
deriving DecidableEq, Repr

inductive StoreError where
  | invalidState
  | notFound
  | duplicate
deriving DecidableEq, Repr

def updateStory (story : StoredStory) (upd : StoryUpdates) (now : Nat) :
    Except StoreError StoredStory :=
  if story.status = StoryStatus.published then
    Except.error StoreError.invalidState
  else
    Except.ok { story with
      title := upd.title.getD story.title
      description := upd.description.getD story.description
      updatedAt := now }

def lookupStory (id : String) : List (String × StoredStory) → Option StoredStory
  | [] => none
  | (k, v) :: rest => if k = id then some v else lookupStory id rest

def setStory (id : String) (story : StoredStory) :
    List (String × StoredStory) → List (String × StoredStory)
  | [] => []
  | (k, v) :: rest =>
    if k = id then (k, story) :: setStory id story rest
    else (k, v) :: setStory id story rest

def publishSeq (store : List (String × StoredStory)) (issueCount : Nat)
    (id : String) (key : String) : List (String × StoredStory) × Nat :=
  match lookupStory id store with
  | none => (store, issueCount)
  | some s =>
    if s.status = StoryStatus.published then (store, issueCount)
    else
      (setStory id { s with status := StoryStatus.published, externalKey := some key } store,
        issueCount + 1)

structure PubState where
  lock : Bool
  published : Bool
  issues : Nat
  pc1 : Nat
  pc2 : Nat
deriving DecidableEq, Repr

def pubStep (published lock : Bool) (issues : Nat) (pc : Nat) :
    Bool × Bool × Nat × Nat :=
  match pc with
  | 0 => if lock then (published, lock, issues, 0) else (published, true, issues, 1)
  | 1 => if published then (published, lock, issues, 6) else (published, lock, issues, 2)
  | 2 => (published, lock, issues + 1, 3)
  | 3 => (true, lock, issues, 4)
  | 4 => (published, false, issues, 5)
  | 6 => (published, false, issues, 7)
  | _ => (published, lock, issues, pc)

def stepT (s : PubState) (t : Bool) : PubState :=
  if t then
    let r := pubStep s.published s.lock s.issues s.pc1
    { published := r.1, lock := r.2.1, issues := r.2.2.1, pc1 := r.2.2.2, pc2 := s.pc2 }
  else
    let r := pubStep s.published s.lock s.issues s.pc2
    { published := r.1, lock := r.2.1, issues := r.2.2.1, pc1 := s.pc1, pc2 := r.2.2.2 }

def runPub (s : PubState) : List Bool → PubState
  | [] => s
  | t :: ts => runPub (stepT s t) ts

def pubInit : PubState :=
  { lock := false, published := false, issues := 0, pc1 := 0, pc2 := 0 }

def inCrit (pc : Nat) : Bool :=
  pc = 1 || pc = 2 || pc = 3 || pc = 4 || pc = 6

def onSucc (pc : Nat) : Bool :=
  pc = 2 || pc = 3 || pc = 4 || pc = 5

def contrib (pc : Nat) : Nat :=
  if pc = 3 || pc = 4 || pc = 5 then 1 else 0

def wrotePub (pc : Nat) : Bool :=
  pc = 4 || pc = 5

def errPath (pc : Nat) : Bool :=
  pc = 6 || pc = 7

def PubInv (s : PubState) : Prop :=
  s.pc1 ≤ 7 ∧ s.pc2 ≤ 7 ∧
  s.lock = (inCrit s.pc1 || inCrit s.pc2) ∧
  ¬(inCrit s.pc1 = true ∧ inCrit s.pc2 = true) ∧
  s.issues = contrib s.pc1 + contrib s.pc2 ∧
  s.published = (wrotePub s.pc1 || wrotePub s.pc2) ∧
  ¬(onSucc s.pc1 = true ∧ onSucc s.pc2 = true) ∧
  (errPath s.pc1 = true → wrotePub s.pc2 = true) ∧
  (errPath s.pc2 = true → wrotePub s.pc1 = true)

instance (s : PubState) : Decidable (PubInv s) := by
  unfold PubInv
  infer_instance

def twoPairText (t1 d1 t2 d2 : List Char) : String :=
  (storyTitleMarker ++ (t1 ++ '\n' :: (descriptionMarker ++ (d1 ++ '\n' ::
    (storyTitleMarker ++ (t2 ++ '\n' :: (descriptionMarker ++ d2))))))).asString

def envA : JsEnv := { now := fun _ => 0, rand := fun _ => "a" }

def envB : JsEnv := { now := fun _ => 0, rand := fun _ => "b" }

theorem matchStoryAt_nil : matchStoryAt [] = none := rfl

theorem dropPat_append (pat s : List Char) : dropPat pat (pat ++ s) = some s := by
  induction pat with
  | nil => rfl
  | cons p ps ih => simp [dropPat, ih]

theorem dropPat_eq_append {pat s r : List Char} (h : dropPat pat s = some r) :
    s = pat ++ r := by
  induction pat generalizing s with
  | nil =>
    simp only [dropPat, Option.some.injEq] at h
    simp [h]
  | cons p ps ih =>
    cases s with
    | nil => simp [dropPat] at h
    | cons c cs =>
      by_cases hpc : p = c
      · subst hpc
        simp only [dropPat, if_pos rfl] at h
        simpa using ih h
      · simp [dropPat, hpc] at h

theorem matchStoryAt_eq_append {s chunk rest : List Char}
    (h : matchStoryAt s = some (chunk, rest)) : s = chunk ++ rest ∧ chunk ≠ [] := by
  unfold matchStoryAt at h
  cases h1 : dropPat storyTitleMarker s with
  | none => rw [h1] at h; exact absurd h (by simp)
  | some r1 =>
    rw [h1] at h
    simp only at h
    cases h2 : r1.dropWhile notNL with
    | nil => rw [h2] at h; exact absurd h (by simp)
    | cons c r2 =>
      rw [h2] at h
      simp only at h
      by_cases hc : c = '\n'
      · subst hc
        rw [if_pos rfl] at h
        cases h3 : dropPat descriptionMarker r2 with
        | none => rw [h3] at h; exact absurd h (by simp)
        | some r3 =>
          rw [h3] at h
          simp only at h
          have hr1 : r1 = r1.takeWhile notNL ++ '\n' :: r2 := by
            conv_lhs => rw [← List.takeWhile_append_dropWhile notNL r1, h2]
          have hs := dropPat_eq_append h1
          have hr2 := dropPat_eq_append h3
          cases h4 : r3.dropWhile notNL with
          | nil =>
            rw [h4] at h
            have hr3 : r3 = r3.takeWhile notNL := by
              conv_lhs => rw [← List.takeWhile_append_dropWhile notNL r3, h4]
              simp
            simp only [Option.some.injEq, Prod.mk.injEq] at h
            obtain ⟨hchunk, hrest⟩ := h
            refine ⟨?_, by rw [← hchunk]; simp [storyTitleMarker]⟩
            rw [hs, ← hchunk, ← hrest]
            conv_lhs => rw [hr1, hr2]
            conv_lhs => rw [hr3]
            simp
          | cons c' r4 =>
            rw [h4] at h
            simp only at h
            by_cases hc' : c' = '\n'
            · subst hc'
              rw [if_pos rfl] at h
              have hr3 : r3 = r3.takeWhile notNL ++ '\n' :: r4 := by
                conv_lhs => rw [← List.takeWhile_append_dropWhile notNL r3, h4]
              simp only [Option.some.injEq, Prod.mk.injEq] at h
              obtain ⟨hchunk, hrest⟩ := h
              refine ⟨?_, by rw [← hchunk]; simp [storyTitleMarker]⟩
              rw [hs, ← hchunk, ← hrest]
              conv_lhs => rw [hr1, hr2]
              conv_lhs => rw [hr3]
              simp
            · rw [if_neg hc'] at h
              exact absurd h (by simp)
      · rw [if_neg hc] at h
        exact absurd h (by simp)

theorem matchStoryAt_rest_lt {s chunk rest : List Char}
    (h : matchStoryAt s = some (chunk, rest)) : rest.length < s.length := by
  obtain ⟨heq, hne⟩ := matchStoryAt_eq_append h
  rw [heq, List.length_append]
  have : 0 < chunk.length := List.length_pos.mpr hne
  omega

theorem globalMatchesAux_nil (n : Nat) : globalMatchesAux n [] = [] := by
  cases n <;> rfl

theorem globalMatchesAux_fuel (n m : Nat) (s : List Char)
    (hn : s.length ≤ n) (hm : s.length ≤ m) :
    globalMatchesAux n s = globalMatchesAux m s := by
  induction n generalizing m s with
  | zero =>
    have : s = [] := List.length_eq_zero.mp (Nat.le_zero.mp hn)
    subst this
    simp [globalMatchesAux_nil]
  | succ n ih =>
    cases s with
    | nil => simp [globalMatchesAux_nil]
    | cons c cs =>
      cases m with
      | zero => simp at hm
      | succ m =>
        show globalMatchesAux (n + 1) (c :: cs) = globalMatchesAux (m + 1) (c :: cs)
        simp only [globalMatchesAux]
        cases hmatch : matchStoryAt (c :: cs) with
        | none =>
          have hlen : cs.length ≤ n := by simp at hn; omega
          have hlen' : cs.length ≤ m := by simp at hm; omega
          simp [ih _ _ hlen hlen']
        | some p =>
          obtain ⟨chunk, rest⟩ := p
          have hlt := matchStoryAt_rest_lt hmatch
          have hlen : rest.length ≤ n := by simp at hn hlt; omega
          have hlen' : rest.length ≤ m := by simp at hm hlt; omega
          simp [ih _ _ hlen hlen']

theorem globalMatches_nil : globalMatches [] = [] := rfl

theorem globalMatches_cons_none {c : Char} {cs : List Char}
    (h : matchStoryAt (c :: cs) = none) :
    globalMatches (c :: cs) = globalMatches cs := by
  show globalMatchesAux (cs.length + 1) (c :: cs) = globalMatchesAux cs.length cs
  simp [globalMatchesAux, h]

theorem globalMatches_some {s chunk rest : List Char}
    (h : matchStoryAt s = some (chunk, rest)) :
    globalMatches s = chunk :: globalMatches rest := by
  cases s with
  | nil => rw [matchStoryAt_nil] at h; exact absurd h (by simp)
  | cons c cs =>
    show globalMatchesAux (cs.length + 1) (c :: cs) = chunk :: globalMatchesAux rest.length rest
    simp only [globalMatchesAux, h]
    have hlt := matchStoryAt_rest_lt h
    have : rest.length ≤ cs.length := by simp at hlt; omega
    rw [globalMatchesAux_fuel _ _ _ this le_rfl]

theorem pubInv_init : PubInv pubInit := by
  simp [PubInv, pubInit, inCrit, onSucc, contrib, wrotePub, errPath]

theorem pubInv_step (s : PubState) (t : Bool) (h : PubInv s) : PubInv (stepT s t) := by
  obtain ⟨lock, published, issues, pc1, pc2⟩ := s
  obtain ⟨h1, h2, h3, h4, h5, h6, h7, h8, h9⟩ := h
  simp only at h1 h2 h3 h4 h5 h6 h7 h8 h9
  subst h3 h5 h6
  cases t <;>
    (interval_cases pc1 <;> interval_cases pc2 <;>
      revert h4 h7 h8 h9 <;> decide)

theorem pubInv_run (sched : List Bool) (s : PubState) (h : PubInv s) :
    PubInv (runPub s sched) := by
  induction sched generalizing s with
  | nil => exact h
  | cons t ts ih => exact ih _ (pubInv_step s t h)

theorem pubInv_done {s : PubState} (h : PubInv s)
    (h1 : s.pc1 = 5 ∨ s.pc1 = 7) (h2 : s.pc2 = 5 ∨ s.pc2 = 7) :
    s.issues = 1 ∧ s.published = true := by
  obtain ⟨lock, published, issues, pc1, pc2⟩ := s
  obtain ⟨g1, g2, g3, g4, g5, g6, g7, g8, g9⟩ := h
  simp only at g1 g2 g3 g4 g5 g6 g7 g8 g9 h1 h2 ⊢
  subst g3 g5 g6
  rcases h1 with h1 | h1 <;> rcases h2 with h2 | h2 <;> subst h1 <;> subst h2 <;>
    revert g4 g7 g8 g9 <;> decide

theorem lookupStory_setStory_ne (idA idB : String) (story : StoredStory)
    (l : List (String × StoredStory)) (h : idB ≠ idA) :
    lookupStory idB (setStory idA story l) = lookupStory idB l := by
  induction l with
  | nil => rfl
  | cons kv rest ih =>
    obtain ⟨k, v⟩ := kv
    by_cases hk : k = idA
    · subst hk
      have hkb : ¬(k = idB) := fun hkb => h (hkb ▸ rfl)
      simp [setStory, lookupStory, hkb, ih]
    · by_cases hkb : k = idB
      · subst hkb
        simp [setStory, lookupStory, hk]
      · simp [setStory, lookupStory, hk, hkb, ih]

theorem enumFrom_map_snd {α β : Type _} (G : α → β) (n : Nat) (l : List α) :
    (List.enumFrom n l).map (fun p => G p.2) = l.map G := by
  induction l generalizing n with
  | nil => rfl
  | cons a l ih => simp [List.enumFrom, ih]

theorem extract_map {β : Type _} (env : JsEnv) (text : String)
    (F : StoryCandidate → β) (G : List Char → β)
    (hFG : ∀ id chunk, F (storyFromChunk id chunk) = G chunk) :
    (extractStories env text).map F = (globalMatches text.data).map G := by
  unfold extractStories
  rw [List.map_map]
  have heq : (F ∘ fun p : Nat × List Char => storyFromChunk (mkId env p.1) p.2)
      = fun p : Nat × List Char => G p.2 := by
    funext p
    exact hFG _ _
  rw [heq]
  exact enumFrom_map_snd G 0 (globalMatches text.data)

theorem takeWhile_notNL_all (xs : List Char) (h : '\n' ∉ xs) :
    xs.takeWhile notNL = xs := by
  induction xs with
  | nil => rfl
  | cons a l ih =>
    have ha : notNL a = true := by
      simp [notNL]
      intro hc
      exact h (hc ▸ List.mem_cons_self a l)
    simp only [List.takeWhile_cons, ha, if_pos]
    rw [ih fun hm => h (List.mem_cons_of_mem a hm)]

theorem dropWhile_notNL_all (xs : List Char) (h : '\n' ∉ xs) :
    xs.dropWhile notNL = [] := by
  induction xs with
  | nil => rfl
  | cons a l ih =>
    have ha : notNL a = true := by
      simp [notNL]
      intro hc
      exact h (hc ▸ List.mem_cons_self a l)
    simp only [List.dropWhile_cons, ha, if_pos]
    exact ih fun hm => h (List.mem_cons_of_mem a hm)

theorem takeWhile_notNL_append (xs ys : List Char) (h : '\n' ∉ xs) :
    (xs ++ '\n' :: ys).takeWhile notNL = xs := by
  induction xs with
  | nil => simp [List.takeWhile_cons, notNL]
  | cons a l ih =>
    have ha : notNL a = true := by
      simp [notNL]
      intro hc
      exact h (hc ▸ List.mem_cons_self a l)
    simp only [List.cons_append, List.takeWhile_cons, ha, if_pos]
    rw [ih fun hm => h (List.mem_cons_of_mem a hm)]

theorem dropWhile_notNL_append (xs ys : List Char) (h : '\n' ∉ xs) :
    (xs ++ '\n' :: ys).dropWhile notNL = '\n' :: ys := by
  induction xs with
  | nil => simp [List.dropWhile_cons, notNL]
  | cons a l ih =>
    have ha : notNL a = true := by
      simp [notNL]
      intro hc
      exact h (hc ▸ List.mem_cons_self a l)
    simp only [List.cons_append, List.dropWhile_cons, ha, if_pos]
    exact ih fun hm => h (List.mem_cons_of_mem a hm)

theorem matchStoryAt_pair (t d rest : List Char) (ht : '\n' ∉ t) (hd : '\n' ∉ d) :
    matchStoryAt (storyTitleMarker ++ (t ++ '\n' :: (descriptionMarker ++ (d ++ '\n' :: rest))))
      = some (storyTitleMarker ++ (t ++ '\n' :: (descriptionMarker ++ (d ++ ['\n']))), rest) := by
  unfold matchStoryAt
  rw [dropPat_append]
  simp only
  rw [dropWhile_notNL_append _ _ ht, takeWhile_notNL_append _ _ ht]
  simp only [if_pos rfl]
  rw [dropPat_append]
  simp only
  rw [dropWhile_notNL_append _ _ hd, takeWhile_notNL_append _ _ hd]
  simp

theorem matchStoryAt_pair_end (t d : List Char) (ht : '\n' ∉ t) (hd : '\n' ∉ d) :
    matchStoryAt (storyTitleMarker ++ (t ++ '\n' :: (descriptionMarker ++ d)))
      = some (storyTitleMarker ++ (t ++ '\n' :: (descriptionMarker ++ d)), []) := by
  unfold matchStoryAt
  rw [dropPat_append]
  simp only
  rw [dropWhile_notNL_append _ _ ht, takeWhile_notNL_append _ _ ht]
  simp only [if_pos rfl]
  rw [dropPat_append]
  simp only
  rw [dropWhile_notNL_all _ hd, takeWhile_notNL_all _ hd]
  simp

theorem containsPat_append_self (pat pre post : List Char) :
    containsPat pat (pre ++ (pat ++ post)) = true := by
  induction pre with
  | nil =>
    cases pat with
    | nil => cases post <;> simp [containsPat, dropPat]
    | cons p ps =>
      have hdp : dropPat (p :: ps) (p :: (ps ++ post)) = some post := by
        have := dropPat_append (p :: ps) post
        simpa using this
      show containsPat (p :: ps) ((p :: ps) ++ post) = true
      simp [containsPat, hdp]
  | cons a pre ih =>
    simp [containsPat, ih]

theorem matchStoryAt_some_marker {s chunk rest : List Char}
    (h : matchStoryAt s = some (chunk, rest)) :
    containsPat storyTitleMarker s = true := by
  unfold matchStoryAt at h
  cases h1 : dropPat storyTitleMarker s with
  | none => rw [h1] at h; exact absurd h (by simp)
  | some r1 =>
    have := dropPat_eq_append h1
    subst this
    exact containsPat_append_self _ [] _

theorem matchStoryAt_some_nlDesc {s chunk rest : List Char}
    (h : matchStoryAt s = some (chunk, rest)) :
    containsPat ('\n' :: descriptionMarker) s = true := by
  unfold matchStoryAt at h
  cases h1 : dropPat storyTitleMarker s with
  | none => rw [h1] at h; exact absurd h (by simp)
  | some r1 =>
    rw [h1] at h
    simp only at h
    cases h2 : r1.dropWhile notNL with
    | nil => rw [h2] at h; exact absurd h (by simp)
    | cons c r2 =>
      rw [h2] at h
      simp only at h
      by_cases hc : c = '\n'
      · subst hc
        rw [if_pos rfl] at h
        cases h3 : dropPat descriptionMarker r2 with
        | none => rw [h3] at h; exact absurd h (by simp)
        | some r3 =>
          have hs := dropPat_eq_append h1
          have hr1 : r1 = r1.takeWhile notNL ++ '\n' :: r2 := by
            conv_lhs => rw [← List.takeWhile_append_dropWhile notNL r1, h2]
          have hr2 := dropPat_eq_append h3
          rw [hs, hr1, hr2]
          have : storyTitleMarker ++ (r1.takeWhile notNL ++ '\n' :: (descriptionMarker ++ r3))
              = (storyTitleMarker ++ r1.takeWhile notNL) ++ (('\n' :: descriptionMarker) ++ r3) := by
            simp
          rw [this]
          exact containsPat_append_self _ _ _
      · rw [if_neg hc] at h
        exact absurd h (by simp)

theorem containsPat_tail {pat : List Char} {c : Char} {cs : List Char}
    (h : containsPat pat (c :: cs) = false) : containsPat pat cs = false := by
  by_contra htail
  have : containsPat pat cs = true := by
    cases hcs : containsPat pat cs
    · exact absurd hcs htail
    · rfl
  simp [containsPat, this] at h

theorem globalMatches_eq_nil_of_no_marker (s : List Char)
    (h : containsPat storyTitleMarker s = false) : globalMatches s = [] := by
  induction s with
  | nil => exact globalMatches_nil
  | cons c cs ih =>
    cases hm : matchStoryAt (c :: cs) with
    | some p =>
      obtain ⟨chunk, rest⟩ := p
      have := matchStoryAt_some_marker hm
      rw [this] at h
      exact absurd h (by simp)
    | none =>
      rw [globalMatches_cons_none hm]
      exact ih (containsPat_tail h)

theorem globalMatches_eq_nil_of_no_descLine (s : List Char)
    (h : containsPat ('\n' :: descriptionMarker) s = false) : globalMatches s = [] := by
  induction s with
  | nil => exact globalMatches_nil
  | cons c cs ih =>
    cases hm : matchStoryAt (c :: cs) with
    | some p =>
      obtain ⟨chunk, rest⟩ := p
      have := matchStoryAt_some_nlDesc hm
      rw [this] at h
      exact absurd h (by simp)
    | none =>
      rw [globalMatches_cons_none hm]
      exact ih (containsPat_tail h)

theorem titleMatchAt_pair (t z : List Char) (ht : '\n' ∉ t) :
    titleMatchAt (storyTitleMarker ++ (t ++ '\n' :: z)) = some t := by
  unfold titleMatchAt
  rw [dropPat_append]
  simp only
  rw [dropWhile_notNL_append _ _ ht, takeWhile_notNL_append _ _ ht]
  simp

theorem titleSearch_of_at {s : List Char} {t : List Char}
    (h : titleMatchAt s = some t) : titleSearch s = some t := by
  cases s with
  | nil =>
    have : titleMatchAt ([] : List Char) = none := rfl
    rw [this] at h
    exact absurd h (by simp)
  | cons c cs => simp [titleSearch, h]

theorem descMatchAt_marker (x : List Char) :
    descMatchAt (descriptionMarker ++ x) = some (x.takeWhile notNL) := by
  unfold descMatchAt
  rw [dropPat_append]

theorem descSearch_of_at {s d : List Char}
    (h : descMatchAt s = some d) : descSearch s = some d := by
  cases s with
  | nil =>
    have : descMatchAt ([] : List Char) = none := rfl
    rw [this] at h
    exact absurd h (by simp)
  | cons c cs => simp [descSearch, h]

theorem dropPat_descriptionMarker_nl (z : List Char) :
    dropPat descriptionMarker ('\n' :: z) = none := by
  show (if ('D' : Char) = '\n' then dropPat "escription: ".toList z else none) = none
  rw [if_neg (by decide)]

theorem dropPat_nl_extend (pat : List Char) (hp : '\n' ∉ pat) :
    ∀ (w z : List Char), dropPat pat w = none → dropPat pat (w ++ '\n' :: z) = none := by
  induction pat with
  | nil =>
    intro w z h
    simp [dropPat] at h
  | cons p ps ih =>
    intro w z h
    cases w with
    | nil =>
      have hpn : p ≠ '\n' := fun he => hp (he ▸ List.mem_cons_self p ps)
      show (if p = '\n' then dropPat ps z else none) = none
      rw [if_neg hpn]
    | cons a w =>
      by_cases hpa : p = a
      · subst hpa
        simp only [dropPat, if_pos rfl] at h
        show (if p = p then dropPat ps (w ++ '\n' :: z) else none) = none
        rw [if_pos rfl]
        exact ih (fun hm => hp (List.mem_cons_of_mem p hm)) w z h
      · show (if p = a then dropPat ps (w ++ '\n' :: z) else none) = none
        rw [if_neg hpa]

theorem descSearch_line (u z : List Char)
    (h : containsPat descriptionMarker u = false) :
    descSearch (u ++ '\n' :: z) = descSearch z := by
  induction u with
  | nil =>
    have hm : descMatchAt ('\n' :: z) = none := by
      simp [descMatchAt, dropPat_descriptionMarker_nl]
    show descSearch ('\n' :: z) = descSearch z
    simp [descSearch, hm]
  | cons a u ih =>
    have h1 : dropPat descriptionMarker (a :: u) = none := by
      cases hdp : dropPat descriptionMarker (a :: u) with
      | none => rfl
      | some r => simp [containsPat, hdp] at h
    have h3 : dropPat descriptionMarker (a :: (u ++ '\n' :: z)) = none := by
      have := dropPat_nl_extend descriptionMarker (by decide) (a :: u) z h1
      simpa using this
    have hm : descMatchAt (a :: (u ++ '\n' :: z)) = none := by
      simp [descMatchAt, h3]
    show descSearch (a :: (u ++ '\n' :: z)) = descSearch z
    simp only [descSearch, hm]
    exact ih (containsPat_tail h)

theorem descSearch_no_nl {s d : List Char} (h : descSearch s = some d) : '\n' ∉ d := by
  induction s with
  | nil => simp [descSearch] at h
  | cons c cs ih =>
    cases hm : descMatchAt (c :: cs) with
    | some r =>
      simp only [descSearch, hm, Option.some.injEq] at h
      unfold descMatchAt at hm
      cases hdp : dropPat descriptionMarker (c :: cs) with
      | none => rw [hdp] at hm; exact absurd hm (by simp)
      | some r2 =>
        rw [hdp] at hm
        simp only [Option.some.injEq] at hm
        intro hmem
        rw [← h, ← hm] at hmem
        have := List.mem_takeWhile_imp hmem
        simp [notNL] at this
    | none =>
      simp only [descSearch, hm] at h
      exact ih h

theorem chunkTitle_pair (t z : List Char) (ht : '\n' ∉ t) :
    chunkTitle (storyTitleMarker ++ (t ++ '\n' :: z)) = t.asString := by
  unfold chunkTitle
  rw [titleSearch_of_at (titleMatchAt_pair t z ht)]

theorem chunkDesc_pair (t d tail : List Char)
    (hDE : containsPat descriptionMarker (storyTitleMarker ++ t) = false)
    (hd : '\n' ∉ d) :
    chunkDesc (storyTitleMarker ++ (t ++ '\n' :: (descriptionMarker ++ (d ++ '\n' :: tail))))
      = d.asString := by
  unfold chunkDesc
  have hassoc : storyTitleMarker ++ (t ++ '\n' :: (descriptionMarker ++ (d ++ '\n' :: tail)))
      = (storyTitleMarker ++ t) ++ '\n' :: (descriptionMarker ++ (d ++ '\n' :: tail)) := by
    simp
  rw [hassoc, descSearch_line _ _ hDE,
    descSearch_of_at (descMatchAt_marker (d ++ '\n' :: tail)),
    takeWhile_notNL_append _ _ hd]

theorem chunkDesc_pair_end (t d : List Char)
    (hDE : containsPat descriptionMarker (storyTitleMarker ++ t) = false)
    (hd : '\n' ∉ d) :
    chunkDesc (storyTitleMarker ++ (t ++ '\n' :: (descriptionMarker ++ d))) = d.asString := by
  unfold chunkDesc
  have hassoc : storyTitleMarker ++ (t ++ '\n' :: (descriptionMarker ++ d))
      = (storyTitleMarker ++ t) ++ '\n' :: (descriptionMarker ++ d) := by
    simp
  rw [hassoc, descSearch_line _ _ hDE,
    descSearch_of_at (descMatchAt_marker d),
    takeWhile_notNL_all _ hd]

theorem globalMatches_twoPair (t1 d1 t2 d2 : List Char)
    (ht1 : '\n' ∉ t1) (hd1 : '\n' ∉ d1) (ht2 : '\n' ∉ t2) (hd2 : '\n' ∉ d2) :
    globalMatches (twoPairText t1 d1 t2 d2).data
      = [storyTitleMarker ++ (t1 ++ '\n' :: (descriptionMarker ++ (d1 ++ ['\n']))),
         storyTitleMarker ++ (t2 ++ '\n' :: (descriptionMarker ++ d2))] := by
  have hdata : (twoPairText t1 d1 t2 d2).data
      = storyTitleMarker ++ (t1 ++ '\n' :: (descriptionMarker ++ (d1 ++ '\n' ::
          (storyTitleMarker ++ (t2 ++ '\n' :: (descriptionMarker ++ d2)))))) := rfl
  rw [hdata,
    globalMatches_some (matchStoryAt_pair t1 d1 _ ht1 hd1),
    globalMatches_some (matchStoryAt_pair_end t2 d2 ht2 hd2),
    globalMatches_nil]

theorem extract_strip_twoPair (env : JsEnv) (t1 d1 t2 d2 : List Char)
    (ht1 : '\n' ∉ t1) (hd1 : '\n' ∉ d1) (ht2 : '\n' ∉ t2) (hd2 : '\n' ∉ d2)
    (hDE1 : containsPat descriptionMarker (storyTitleMarker ++ t1) = false)
    (hDE2 : containsPat descriptionMarker (storyTitleMarker ++ t2) = false) :
    (extractStories env (twoPairText t1 d1 t2 d2)).map
        (fun c => (c.title, c.description, c.published))
      = [(t1.asString, d1.asString, false), (t2.asString, d2.asString, false)] := by
  rw [extract_map env _ _ (fun ch => (chunkTitle ch, chunkDesc ch, false)) (fun _ _ => rfl),
    globalMatches_twoPair t1 d1 t2 d2 ht1 hd1 ht2 hd2]
  simp only [List.map_cons, List.map_nil]
  rw [chunkTitle_pair t1 _ ht1, chunkDesc_pair t1 d1 [] hDE1 hd1,
    chunkTitle_pair t2 _ ht2, chunkDesc_pair_end t2 d2 hDE2 hd2]

theorem c1_counterexample :
    extractStories envEx "Story Title: Alpha\nno desc follows" = [] ∧
    ((extractStories envEx "Story Title: Alpha\nno desc follows").map
        fun c => c.description) ≠ ["No description"] :=
  ⟨by decide, by decide⟩

theorem c1_claim (env : JsEnv) (s : String)
    (h : containsPat ('\n' :: descriptionMarker) s.data = false) :
    extractStories env s = [] := by
  unfold extractStories
  rw [globalMatches_eq_nil_of_no_descLine s.data h]
  rfl

theorem c1_witness :
    containsPat ('\n' :: descriptionMarker) "Story Title: Alpha\nno desc follows".data = false ∧
    extractStories envEx "Story Title: Alpha\nno desc follows" = [] :=
  ⟨by decide, c1_claim envEx "Story Title: Alpha\nno desc follows" (by decide)⟩

theorem c2_counterexample :
    ((extractStories envEx
        "Story Title: A Description: X\nDescription: B\nStory Title: C\nDescription: D").map
        fun c => (c.title, c.description))
      = [("A Description: X", "X"), ("C", "D")] ∧
    ((extractStories envEx
        "Story Title: A Description: X\nDescription: B\nStory Title: C\nDescription: D").map
        fun c => c.description) ≠ ["B", "D"] :=
  ⟨by decide, by decide⟩

theorem c2_claim :
    (∀ (env : JsEnv) (s : String), containsPat storyTitleMarker s.data = false →
        extractStories env s = []) ∧
    (∀ (env : JsEnv) (t1 d1 t2 d2 : List Char),
      '\n' ∉ t1 → '\n' ∉ d1 → '\n' ∉ t2 → '\n' ∉ d2 →
      containsPat descriptionMarker (storyTitleMarker ++ t1) = false →
      containsPat descriptionMarker (storyTitleMarker ++ t2) = false →
      (extractStories env (twoPairText t1 d1 t2 d2)).map
          (fun c => (c.title, c.description, c.published))
        = [(t1.asString, d1.asString, false), (t2.asString, d2.asString, false)]) := by
  constructor
  · intro env s h
    unfold extractStories
    rw [globalMatches_eq_nil_of_no_marker s.data h]
    rfl
  · intro env t1 d1 t2 d2 ht1 hd1 ht2 hd2 h1 h2
    exact extract_strip_twoPair env t1 d1 t2 d2 ht1 hd1 ht2 hd2 h1 h2

theorem c2_witness :
    extractStories envEx "just prose with no markers" = [] ∧
    (extractStories envEx (twoPairText "A".toList "B".toList "C".toList "D".toList)).map
        (fun c => (c.title, c.description, c.published))
      = [("A", "B", false), ("C", "D", false)] :=
  ⟨c2_claim.1 envEx "just prose with no markers" (by decide),
   c2_claim.2 envEx "A".toList "B".toList "C".toList "D".toList
     (by decide) (by decide) (by decide) (by decide) (by decide) (by decide)⟩

theorem c3_counterexample :
    extractStories envA "Story Title: T\nDescription: D"
      ≠ extractStories envB "Story Title: T\nDescription: D" := by
  decide

theorem c3_claim (env₁ env₂ : JsEnv) (text : String) :
    (extractStories env₁ text).map (fun c => (c.title, c.description, c.published))
      = (extractStories env₂ text).map (fun c => (c.title, c.description, c.published)) := by
  rw [extract_map env₁ _ _ (fun ch => (chunkTitle ch, chunkDesc ch, false)) (fun _ _ => rfl),
    extract_map env₂ _ _ (fun ch => (chunkTitle ch, chunkDesc ch, false)) (fun _ _ => rfl)]

theorem c10_claim :
    (∀ (env : JsEnv) (text : String) (c : StoryCandidate),
        c ∈ extractStories env text → '\n' ∉ c.description.data) ∧
    (∀ env : JsEnv,
      (extractStories env "Story Title: A\nDescription: line1\nline2").map
          (fun c => c.description) = ["line1"]) := by
  constructor
  · intro env text c hc
    unfold extractStories at hc
    obtain ⟨p, hp, rfl⟩ := List.mem_map.mp hc
    show '\n' ∉ (chunkDesc p.2).data
    unfold chunkDesc
    cases hd : descSearch p.2 with
    | some d =>
      have := descSearch_no_nl hd
      simpa using this
    | none => decide
  · intro env
    rw [extract_map env _ _ chunkDesc (fun _ _ => rfl)]
    decide

theorem c10_witness :
    (⟨mkId envEx 0, "A", "B", false⟩ : StoryCandidate) ∈
        extractStories envEx "Story Title: A\nDescription: B" ∧
    '\n' ∉ (⟨mkId envEx 0, "A", "B", false⟩ : StoryCandidate).description.data :=
  ⟨by decide, c10_claim.1 envEx "Story Title: A\nDescription: B" _ (by decide)⟩

theorem storeLoop_requests (pk : String) (fails : StoryCandidate → Bool)
    (l : List StoryCandidate) :
    (storeLoop pk fails l).1 = l.map (Request.storePost pk) := by
  induction l with
  | nil => rfl
  | cons st rest ih => simp [storeLoop, ih]

theorem storeLoop_persisted_mem (pk : String) (fails : StoryCandidate → Bool)
    (l : List StoryCandidate) (st : StoryCandidate) (h : st ∈ l)
    (hf : fails st = false) : st ∈ (storeLoop pk fails l).2 := by
  induction l with
  | nil => simp at h
  | cons a rest ih =>
    rcases List.mem_cons.mp h with rfl | htail
    · simp [storeLoop, hf]
    · by_cases hfa : fails a = true
      · simpa [storeLoop, hfa] using ih htail
      · have : fails a = false := by
          cases hv : fails a
          · rfl
          · exact absurd hv hfa
        simp [storeLoop, this]
        exact Or.inr (ih htail)

theorem c4_claim (input pk : String) (env : JsEnv) (resp : String)
    (fails : StoryCandidate → Bool) (h : blankInput input = false) :
    (handleSend input (some pk) env (Except.ok resp) fails).requests
        = Request.chat input pk :: (extractStories env resp).map (Request.storePost pk) ∧
    (∀ st ∈ extractStories env resp, fails st = false →
        st ∈ (handleSend input (some pk) env (Except.ok resp) fails).persisted) := by
  constructor
  · simp [handleSend, h, storeLoop_requests]
  · intro st hst hf
    simp only [handleSend, h, Bool.false_eq_true, if_false]
    exact storeLoop_persisted_mem pk fails _ st hst hf

theorem c4_witness :
    blankInput "hi" = false ∧
    (⟨mkId envEx 1, "C", "D", false⟩ : StoryCandidate) ∈
      (handleSend "hi" (some "PK") envEx
        (Except.ok "Story Title: A\nDescription: B\nStory Title: C\nDescription: D")
        (fun st => st.title == "A")).persisted :=
  ⟨by decide,
   (c4_claim "hi" "PK" envEx
      "Story Title: A\nDescription: B\nStory Title: C\nDescription: D"
      (fun st => st.title == "A") (by decide)).2
     ⟨mkId envEx 1, "C", "D", false⟩ (by decide) (by decide)⟩

theorem c5_claim :
    (∀ (input : String) (env : JsEnv) (chatResult : Except Unit String)
        (fails : StoryCandidate → Bool),
      (handleSend input none env chatResult fails).requests = []) ∧
    (∀ (kind : FileKind) (content : String), handleFileUpload none kind content = []) ∧
    (∀ hasFile : Bool, brdOnDrop none hasFile = []) :=
  ⟨fun _ _ _ _ => rfl, fun _ _ => rfl, fun _ => rfl⟩

theorem c6_claim (input pk : String) (env : JsEnv) (fails : StoryCandidate → Bool)
    (h : blankInput input = false) :
    handleSend input (some pk) env (Except.error ()) fails =
      { requests := [Request.chat input pk]
        messages := [⟨Sender.user, input, []⟩,
          ⟨Sender.assistant, "Failed to process your message. Please try again.", []⟩]
        persisted := [] } := by
  simp [handleSend, h]

theorem c6_witness :
    handleSend "hi" (some "PK") envEx (Except.error ()) (fun _ => false) =
      { requests := [Request.chat "hi" "PK"]
        messages := [⟨Sender.user, "hi", []⟩,
          ⟨Sender.assistant, "Failed to process your message. Please try again.", []⟩]
        persisted := [] } :=
  c6_claim "hi" "PK" envEx (fun _ => false) (by decide)

theorem c7_claim :
    (∀ (story : StoredStory) (upd : StoryUpdates) (now : Nat),
        story.status = StoryStatus.published →
        updateStory story upd now = Except.error StoreError.invalidState) ∧
    (∀ st : Story, editDisabled st = st.published) := by
  constructor
  · intro story upd now h
    simp [updateStory, h]
  · intro st
    rfl

theorem c7_witness :
    updateStory ⟨"s1", "PK", "T", "D", StoryStatus.published, some "JIRA-1", 0⟩
        ⟨some "T2", none⟩ 5
      = Except.error StoreError.invalidState :=
  c7_claim.1 ⟨"s1", "PK", "T", "D", StoryStatus.published, some "JIRA-1", 0⟩
    ⟨some "T2", none⟩ 5 rfl

theorem c8_claim :
    (∀ (st : StoriesState) (pk : String) (story : Story) (jiraKey : String),
      (∀ s ∈ st.stories, s.jiraKey.isSome = s.published) →
      ∀ s' ∈ (handlePublish st (some pk) story (Except.ok jiraKey)).stories,
        s'.jiraKey.isSome = s'.published) ∧
    (∀ (st : StoriesState) (pk : String) (story : Story) (jiraKey : String)
        (s : Story), s ∈ st.stories → s.id = story.id →
      { s with published := true, jiraKey := some jiraKey }
        ∈ (handlePublish st (some pk) story (Except.ok jiraKey)).stories) ∧
    (∀ (st : StoriesState) (pk : String) (story : Story),
      (handlePublish st (some pk) story (Except.error ())).stories = st.stories ∧
      (handlePublish st (some pk) story (Except.error ())).message
        = some (MsgKind.error, "Failed to publish story. Please try again.")) := by
  refine ⟨?_, ?_, ?_⟩
  · intro st pk story jiraKey hinv s' hs'
    simp only [handlePublish] at hs'
    obtain ⟨s, hs, rfl⟩ := List.mem_map.mp hs'
    by_cases hid : s.id = story.id
    · simp [hid]
    · simp only [hid, if_false]
      exact hinv s hs
  · intro st pk story jiraKey s hs hid
    simp only [handlePublish]
    exact List.mem_map.mpr ⟨s, hs, by simp [hid]⟩
  · intro st pk story
    exact ⟨rfl, rfl⟩

theorem c8_witness :
    ({ id := "s1", title := "T", description := "D", published := true,
        jiraKey := some "J-1" } : Story)
      ∈ (handlePublish ⟨[⟨"s1", "T", "D", false, none⟩], none, none⟩ (some "PK")
          ⟨"s1", "T", "D", false, none⟩ (Except.ok "J-1")).stories ∧
    (handlePublish ⟨[⟨"s1", "T", "D", false, none⟩], none, none⟩ (some "PK")
        ⟨"s1", "T", "D", false, none⟩ (Except.error ())).stories
      = [⟨"s1", "T", "D", false, none⟩] :=
  ⟨c8_claim.2.1 ⟨[⟨"s1", "T", "D", false, none⟩], none, none⟩ "PK"
      ⟨"s1", "T", "D", false, none⟩ "J-1" ⟨"s1", "T", "D", false, none⟩
      (by decide) rfl,
   (c8_claim.2.2 ⟨[⟨"s1", "T", "D", false, none⟩], none, none⟩ "PK"
      ⟨"s1", "T", "D", false, none⟩).1⟩

theorem c9_claim :
    (∀ sched : List Bool,
        ((runPub pubInit sched).pc1 = 5 ∨ (runPub pubInit sched).pc1 = 7) →
        ((runPub pubInit sched).pc2 = 5 ∨ (runPub pubInit sched).pc2 = 7) →
        (runPub pubInit sched).issues = 1 ∧ (runPub pubInit sched).published = true) ∧
    (∀ (store : List (String × StoredStory)) (issueCount : Nat) (idA idB key : String),
        idB ≠ idA →
        lookupStory idB (publishSeq store issueCount idA key).1 = lookupStory idB store) := by
  constructor
  · intro sched h1 h2
    exact pubInv_done (pubInv_run sched pubInit pubInv_init) h1 h2
  · intro store issueCount idA idB key h
    unfold publishSeq
    cases hl : lookupStory idA store with
    | none => rfl
    | some s =>
      by_cases hp : s.status = StoryStatus.published
      · simp [hp]
      · simp [hp, lookupStory_setStory_ne idA idB _ store h]

theorem c9_witness :
    ((runPub pubInit [true, true, true, true, true, false, false, false]).issues = 1 ∧
      (runPub pubInit [true, true, true, true, true, false, false, false]).published = true) ∧
    lookupStory "B"
        (publishSeq [("A", ⟨"A", "PK", "T", "D", StoryStatus.draft, none, 0⟩)] 0 "A" "KEY-1").1
      = lookupStory "B" [("A", ⟨"A", "PK", "T", "D", StoryStatus.draft, none, 0⟩)] :=
  ⟨c9_claim.1 [true, true, true, true, true, false, false, false]
      (by decide) (by decide),
   c9_claim.2 [("A", ⟨"A", "PK", "T", "D", StoryStatus.draft, none, 0⟩)] 0 "A" "B" "KEY-1"
      (by decide)⟩
